import Mathlib

/-!
Verification of the sliding-window load-distribution core of
`global_fcns.py` (electricity-demand-forecast).

The embedding models a daily-load record by the three columns that the
core reads (`dayofyear`, `dayofweek`, `load`), with loads as exact
rationals.  `get_load_dist` and `calc_daily_load_distributions` are
translated branch for branch from the source; Python's `%` on a
positive modulus coincides with `Int.emod`.
-/

/-- A row of the daily-load table as read by `get_load_dist`:
the `dayofyear`, `dayofweek` and `load` columns. -/
structure Row where
  dayofyear : ℕ
  dayofweek : ℕ
  load : ℚ
deriving DecidableEq, Repr

/-- The weekday-class filter of `get_load_dist` (lines 144-147):
`dayofweek.isin([1,2,3,4,5])` when `weekday`, else `isin([0,6])`. -/
def class_pred (weekday : Bool) (r : Row) : Bool :=
  if weekday then [1, 2, 3, 4, 5].contains r.dayofweek
  else [0, 6].contains r.dayofweek

/-- The day-of-year window test of `get_load_dist` (lines 148-156),
one branch per arm of the source's `if/elif/else`. -/
def window_pred (center_day window_rad : ℤ) (doy : ℕ) : Bool :=
  if center_day - window_rad < 0 then
    decide ((center_day - window_rad) % 365 ≤ (doy : ℤ)) ||
      decide ((doy : ℤ) ≤ (center_day + window_rad) % 365)
  else if center_day + window_rad > 364 then
    decide ((center_day - window_rad) % 365 ≤ (doy : ℤ)) ||
      decide ((doy : ℤ) ≤ (center_day + window_rad) % 365)
  else
    decide ((center_day - window_rad) % 365 ≤ (doy : ℤ)) &&
      decide ((doy : ℤ) ≤ (center_day + window_rad) % 365)

/-- `get_load_dist(daily_load, center_day, window_rad, weekday)`
(lines 140-157): filter to the weekday class, then select the
day-of-year window, wrapping via `% 365` when a bound crosses the
year boundary. -/
def get_load_dist (daily_load : List Row) (center_day window_rad : ℤ)
    (weekday : Bool := true) : List Row :=
  let dl := if weekday then daily_load.filter (fun r => [1, 2, 3, 4, 5].contains r.dayofweek)
            else daily_load.filter (fun r => [0, 6].contains r.dayofweek)
  if center_day - window_rad < 0 then
    dl.filter (fun r => decide ((center_day - window_rad) % 365 ≤ (r.dayofyear : ℤ)) ||
      decide ((r.dayofyear : ℤ) ≤ (center_day + window_rad) % 365))
  else if center_day + window_rad > 364 then
    dl.filter (fun r => decide ((center_day - window_rad) % 365 ≤ (r.dayofyear : ℤ)) ||
      decide ((r.dayofyear : ℤ) ≤ (center_day + window_rad) % 365))
  else
    dl.filter (fun r => decide ((center_day - window_rad) % 365 ≤ (r.dayofyear : ℤ)) &&
      decide ((r.dayofyear : ℤ) ≤ (center_day + window_rad) % 365))

theorem get_load_dist_eq_filter (s : List Row) (c w : ℤ) (wk : Bool) :
    get_load_dist s c w wk =
      (s.filter (class_pred wk)).filter (fun r => window_pred c w r.dayofyear) := by
  unfold get_load_dist window_pred class_pred
  cases wk <;> split_ifs <;> rfl

theorem mem_get_load_dist {s : List Row} {c w : ℤ} {wk : Bool} {x : Row} :
    x ∈ get_load_dist s c w wk ↔
      x ∈ s ∧ class_pred wk x = true ∧ window_pred c w x.dayofyear = true := by
  rw [get_load_dist_eq_filter]
  simp only [List.mem_filter, and_assoc]

/-- Modelled from the spec: `day_of_year` "lies within `window_radius` days
of `center_day`, treating day-of-year as a circular index modulo 365" -
the circular distance from `d` to `c` on a 365-slot ring is at most `r`. -/
def circ_within (d c r : ℤ) : Prop :=
  (d - c) % 365 ≤ r ∨ (c - d) % 365 ≤ r

instance (d c r : ℤ) : Decidable (circ_within d c r) := by
  unfold circ_within; exact inferInstance

theorem window_pred_iff_circ_within {c r : ℤ} {doy : ℕ} (hc1 : 1 ≤ c) (hc2 : c ≤ 365)
    (hr0 : 0 ≤ r) (hr1 : r ≤ 182) (hrc : r ≠ c) (hb : ¬(c = 365 ∧ r = 0))
    (hd1 : 1 ≤ doy) (hd2 : doy ≤ 365) :
    window_pred c r doy = true ↔ circ_within doy c r := by
  unfold window_pred circ_within
  split_ifs with h1 h2 <;>
    simp only [Bool.or_eq_true, Bool.and_eq_true, decide_eq_true_eq] <;>
    omega

/-- C1 (amended): for `center_day` in `[1,365]`, `window_rad` in `[0,182]`
with `window_rad ≠ center_day` and `(center_day, window_rad) ≠ (365, 0)`,
on records whose `day_of_year` lies in `[1,365]`, `get_load_dist` returns
exactly the weekday-class records within `window_rad` of `center_day`
circularly modulo 365. -/
theorem get_load_dist_circular_window {s : List Row} {c r : ℤ} {wk : Bool}
    (hc1 : 1 ≤ c) (hc2 : c ≤ 365) (hr0 : 0 ≤ r) (hr1 : r ≤ 182)
    (hrc : r ≠ c) (hb : ¬(c = 365 ∧ r = 0))
    (hdoy : ∀ x ∈ s, 1 ≤ x.dayofyear ∧ x.dayofyear ≤ 365) (x : Row) :
    x ∈ get_load_dist s c r wk ↔
      x ∈ s ∧ class_pred wk x = true ∧ circ_within x.dayofyear c r := by
  rw [mem_get_load_dist]
  constructor
  · rintro ⟨hx, hcl, hw⟩
    exact ⟨hx, hcl, (window_pred_iff_circ_within hc1 hc2 hr0 hr1 hrc hb
      (hdoy x hx).1 (hdoy x hx).2).mp hw⟩
  · rintro ⟨hx, hcl, hw⟩
    exact ⟨hx, hcl, (window_pred_iff_circ_within hc1 hc2 hr0 hr1 hrc hb
      (hdoy x hx).1 (hdoy x hx).2).mpr hw⟩

/-- C1 witness: the theorem applied at a concrete series and window. -/
theorem get_load_dist_circular_window_witness :
    (⟨10, 1, 5⟩ : Row) ∈ get_load_dist [⟨10, 1, 5⟩] 12 3 true ↔
      (⟨10, 1, 5⟩ : Row) ∈ [(⟨10, 1, 5⟩ : Row)] ∧
        class_pred true ⟨10, 1, 5⟩ = true ∧ circ_within (10 : ℕ) 12 3 :=
  get_load_dist_circular_window (by decide) (by decide) (by decide) (by decide)
    (by decide) (by decide) (by decide) ⟨10, 1, 5⟩

/-- C1 counterexample: with `center_day = 2` and `window_rad = 2`, day 365
is within the circular window (distance 2 modulo 365) yet `get_load_dist`
excludes the record carrying it, because the non-wrapping branch compares
against the raw interval `[0, 4]`. -/
theorem get_load_dist_circular_window_cex :
    circ_within (365 : ℕ) 2 2 ∧
      (⟨365, 1, 5⟩ : Row) ∉ get_load_dist [⟨365, 1, 5⟩] 2 2 true := by
  constructor
  · unfold circ_within; decide
  · decide

/-- C2: for a non-wrapping window (`0 ≤ center_day - window_rad` and
`center_day + window_rad ≤ 364`, radius non-negative per the data model),
`get_load_dist` returns exactly the weekday-class records with
`day_of_year` in the closed interval `[center_day - window_rad,
center_day + window_rad]`; the result coincides with a brute-force
interval filter, so its cardinality does too. -/
theorem get_load_dist_nonwrap {s : List Row} {c r : ℤ} {wk : Bool}
    (hr : 0 ≤ r) (h1 : 0 ≤ c - r) (h2 : c + r ≤ 364) :
    get_load_dist s c r wk =
        (s.filter (class_pred wk)).filter
          (fun x => decide (c - r ≤ (x.dayofyear : ℤ)) &&
            decide ((x.dayofyear : ℤ) ≤ c + r)) ∧
      (∀ x : Row, x ∈ get_load_dist s c r wk ↔
        x ∈ s ∧ class_pred wk x = true ∧
          c - r ≤ (x.dayofyear : ℤ) ∧ (x.dayofyear : ℤ) ≤ c + r) ∧
      (get_load_dist s c r wk).length =
        ((s.filter (class_pred wk)).filter
          (fun x => decide (c - r ≤ (x.dayofyear : ℤ)) &&
            decide ((x.dayofyear : ℤ) ≤ c + r))).length := by
  have hmod1 : (c - r) % 365 = c - r := by omega
  have hmod2 : (c + r) % 365 = c + r := by omega
  have heq : get_load_dist s c r wk =
      (s.filter (class_pred wk)).filter
        (fun x => decide (c - r ≤ (x.dayofyear : ℤ)) &&
          decide ((x.dayofyear : ℤ) ≤ c + r)) := by
    rw [get_load_dist_eq_filter]
    apply List.filter_congr
    intro x _
    unfold window_pred
    rw [if_neg (by omega), if_neg (by omega), hmod1, hmod2]
  refine ⟨heq, ?_, by rw [heq]⟩
  intro x
  rw [mem_get_load_dist]
  unfold window_pred
  rw [if_neg (by omega), if_neg (by omega), hmod1, hmod2]
  simp only [Bool.and_eq_true, decide_eq_true_eq]

/-- C2 witness: the theorem applied at a concrete non-wrapping window. -/
theorem get_load_dist_nonwrap_witness :
    get_load_dist [(⟨100, 2, 3⟩ : Row)] 100 7 true =
        ([(⟨100, 2, 3⟩ : Row)].filter (class_pred true)).filter
          (fun x => decide ((100 : ℤ) - 7 ≤ (x.dayofyear : ℤ)) &&
            decide ((x.dayofyear : ℤ) ≤ (100 : ℤ) + 7)) ∧
      (∀ x : Row, x ∈ get_load_dist [(⟨100, 2, 3⟩ : Row)] 100 7 true ↔
        x ∈ [(⟨100, 2, 3⟩ : Row)] ∧ class_pred true x = true ∧
          (100 : ℤ) - 7 ≤ (x.dayofyear : ℤ) ∧ (x.dayofyear : ℤ) ≤ (100 : ℤ) + 7) ∧
      (get_load_dist [(⟨100, 2, 3⟩ : Row)] 100 7 true).length =
        (([(⟨100, 2, 3⟩ : Row)].filter (class_pred true)).filter
          (fun x => decide ((100 : ℤ) - 7 ≤ (x.dayofyear : ℤ)) &&
            decide ((x.dayofyear : ℤ) ≤ (100 : ℤ) + 7))).length :=
  get_load_dist_nonwrap (by decide) (by decide) (by decide)

/-- C3 (amended): with `center_day = 2` and `window_rad = 7`,
`get_load_dist` returns exactly the weekday-class records with
`day_of_year ≥ 360` or `day_of_year ≤ 9`; records with day 358, 359 or
200 are excluded. -/
theorem get_load_dist_wrap_2_7 (s : List Row) (x : Row) :
    x ∈ get_load_dist s 2 7 true ↔
      x ∈ s ∧ class_pred true x = true ∧ (360 ≤ x.dayofyear ∨ x.dayofyear ≤ 9) := by
  rw [mem_get_load_dist]
  unfold window_pred
  rw [if_pos (by norm_num)]
  simp only [Bool.or_eq_true, decide_eq_true_eq]
  constructor
  · rintro ⟨hx, hcl, hw⟩; exact ⟨hx, hcl, by omega⟩
  · rintro ⟨hx, hcl, hw⟩; exact ⟨hx, hcl, by omega⟩

/-- C3 counterexample: on a series covering days 358..365 and 1..9, the
record with `day_of_year = 358` is in the input but not in the window
returned for `center_day = 2`, `window_rad = 7`, contradicting the
claimed inclusion of all of 358..365. -/
theorem get_load_dist_wrap_2_7_cex :
    (⟨358, 1, 1⟩ : Row) ∈
        ([⟨358, 1, 1⟩, ⟨359, 1, 1⟩, ⟨360, 1, 1⟩, ⟨361, 1, 1⟩, ⟨362, 1, 1⟩,
          ⟨363, 1, 1⟩, ⟨364, 1, 1⟩, ⟨365, 1, 1⟩, ⟨1, 1, 1⟩, ⟨2, 1, 1⟩,
          ⟨3, 1, 1⟩, ⟨4, 1, 1⟩, ⟨5, 1, 1⟩, ⟨6, 1, 1⟩, ⟨7, 1, 1⟩,
          ⟨8, 1, 1⟩, ⟨9, 1, 1⟩] : List Row) ∧
      (⟨358, 1, 1⟩ : Row) ∉ get_load_dist
        [⟨358, 1, 1⟩, ⟨359, 1, 1⟩, ⟨360, 1, 1⟩, ⟨361, 1, 1⟩, ⟨362, 1, 1⟩,
          ⟨363, 1, 1⟩, ⟨364, 1, 1⟩, ⟨365, 1, 1⟩, ⟨1, 1, 1⟩, ⟨2, 1, 1⟩,
          ⟨3, 1, 1⟩, ⟨4, 1, 1⟩, ⟨5, 1, 1⟩, ⟨6, 1, 1⟩, ⟨7, 1, 1⟩,
          ⟨8, 1, 1⟩, ⟨9, 1, 1⟩] 2 7 true := by
  decide

theorem class_pred_true_iff (x : Row) :
    class_pred true x = true ↔
      (x.dayofweek = 1 ∨ x.dayofweek = 2 ∨ x.dayofweek = 3 ∨
        x.dayofweek = 4 ∨ x.dayofweek = 5) := by
  simp [class_pred, List.contains_cons]

theorem class_pred_false_iff (x : Row) :
    class_pred false x = true ↔ (x.dayofweek = 0 ∨ x.dayofweek = 6) := by
  simp [class_pred, List.contains_cons]

/-- C4: `get_load_dist` with `weekday = true` keeps exactly the records
whose `day_of_week` is in `{1,2,3,4,5}` (Tue..Sat under 0 = Monday), with
`weekday = false` exactly those in `{0,6}` (Mon, Sun), and for any record
of the selected window the two results partition it: it lands in exactly
one of them. -/
theorem get_load_dist_weekday_partition (s : List Row) (c r : ℤ) (x : Row)
    (hx : x ∈ s) (hdow : x.dayofweek ≤ 6) :
    (x ∈ get_load_dist s c r true ↔
        window_pred c r x.dayofyear = true ∧
          (x.dayofweek = 1 ∨ x.dayofweek = 2 ∨ x.dayofweek = 3 ∨
            x.dayofweek = 4 ∨ x.dayofweek = 5)) ∧
      (x ∈ get_load_dist s c r false ↔
        window_pred c r x.dayofyear = true ∧ (x.dayofweek = 0 ∨ x.dayofweek = 6)) ∧
      (window_pred c r x.dayofyear = true →
        (x ∈ get_load_dist s c r true ↔ x ∉ get_load_dist s c r false)) := by
  simp only [mem_get_load_dist, class_pred_true_iff, class_pred_false_iff, hx, true_and]
  refine ⟨by tauto, by tauto, ?_⟩
  intro hw
  simp only [hw, and_true]
  omega

/-- C4 witness: the theorem applied at a concrete record and window. -/
theorem get_load_dist_weekday_partition_witness :
    ((⟨10, 1, 5⟩ : Row) ∈ get_load_dist [⟨10, 1, 5⟩] 10 0 true ↔
        window_pred 10 0 (⟨10, 1, 5⟩ : Row).dayofyear = true ∧
          ((⟨10, 1, 5⟩ : Row).dayofweek = 1 ∨ (⟨10, 1, 5⟩ : Row).dayofweek = 2 ∨
            (⟨10, 1, 5⟩ : Row).dayofweek = 3 ∨ (⟨10, 1, 5⟩ : Row).dayofweek = 4 ∨
            (⟨10, 1, 5⟩ : Row).dayofweek = 5)) ∧
      ((⟨10, 1, 5⟩ : Row) ∈ get_load_dist [⟨10, 1, 5⟩] 10 0 false ↔
        window_pred 10 0 (⟨10, 1, 5⟩ : Row).dayofyear = true ∧
          ((⟨10, 1, 5⟩ : Row).dayofweek = 0 ∨ (⟨10, 1, 5⟩ : Row).dayofweek = 6)) ∧
      (window_pred 10 0 (⟨10, 1, 5⟩ : Row).dayofyear = true →
        ((⟨10, 1, 5⟩ : Row) ∈ get_load_dist [⟨10, 1, 5⟩] 10 0 true ↔
          (⟨10, 1, 5⟩ : Row) ∉ get_load_dist [⟨10, 1, 5⟩] 10 0 false)) :=
  get_load_dist_weekday_partition [⟨10, 1, 5⟩] 10 0 ⟨10, 1, 5⟩ (by decide) (by decide)

/-- C10: a record with `day_of_year = 366` (leap day) of the selected
weekday class is included in every window that takes a wrapped branch
(`center_day - window_rad < 0` or `center_day + window_rad > 364`),
however far day 366 is from the center, and is excluded from every
non-wrapped window. -/
theorem get_load_dist_leap_day (s : List Row) (c r : ℤ) (wk : Bool) (x : Row)
    (hx : x ∈ s) (h366 : x.dayofyear = 366) :
    ((c - r < 0 ∨ c + r > 364) → class_pred wk x = true →
        x ∈ get_load_dist s c r wk) ∧
      (¬(c - r < 0) → ¬(c + r > 364) → x ∉ get_load_dist s c r wk) := by
  constructor
  · intro hbr hcl
    rw [mem_get_load_dist]
    refine ⟨hx, hcl, ?_⟩
    unfold window_pred
    rw [h366]
    split_ifs with h1 h2 <;>
      simp only [Bool.or_eq_true, Bool.and_eq_true, decide_eq_true_eq] <;>
      omega
  · intro hn1 hn2
    rw [mem_get_load_dist]
    rintro ⟨-, -, hw⟩
    unfold window_pred at hw
    rw [if_neg hn1, if_neg hn2, h366] at hw
    simp only [Bool.and_eq_true, decide_eq_true_eq] at hw
    omega

/-- C10 witness: the theorem applied to a leap-day record, once in a
wrapped window and once in a non-wrapped one. -/
theorem get_load_dist_leap_day_witness :
    (((2 : ℤ) - 7 < 0 ∨ (2 : ℤ) + 7 > 364) → class_pred true ⟨366, 1, 5⟩ = true →
        (⟨366, 1, 5⟩ : Row) ∈ get_load_dist [⟨366, 1, 5⟩] 2 7 true) ∧
      (¬((2 : ℤ) - 7 < 0) → ¬((2 : ℤ) + 7 > 364) →
        (⟨366, 1, 5⟩ : Row) ∉ get_load_dist [⟨366, 1, 5⟩] 2 7 true) :=
  get_load_dist_leap_day [⟨366, 1, 5⟩] 2 7 true ⟨366, 1, 5⟩ (by decide) (by decide)

/-- Linear interpolation between order statistics at fractional position
`pos`, the interpolation rule of `Series.quantile` (numpy's default
`linear` method), in exact rational arithmetic. -/
def interp (s : List ℚ) (pos : ℚ) : ℚ :=
  s.getD (⌊pos⌋).toNat 0 + (pos - ((⌊pos⌋).toNat : ℚ)) *
    (s.getD (min ((⌊pos⌋).toNat + 1) (s.length - 1)) 0 - s.getD (⌊pos⌋).toNat 0)

/-- `Series.quantile(q)` as called on the `load` column (line 169/175):
sort the sample, interpolate at virtual index `q * (n - 1)`; the quantile
of an empty sample is NaN, modelled as `none`. -/
def quantile (xs : List ℚ) (q : ℚ) : Option ℚ :=
  if xs = [] then none
  else
    let s := List.insertionSort (· ≤ ·) xs
    some (interp s (q * ((s.length : ℚ) - 1)))

theorem interp_mono {s : List ℚ} (hs : List.Sorted (· ≤ ·) s) (hn : 1 ≤ s.length)
    {h h' : ℚ} (h0 : 0 ≤ h) (hh : h ≤ h') (h1 : h' ≤ (s.length : ℚ) - 1) :
    interp s h ≤ interp s h' := by
  have h0' : 0 ≤ h' := le_trans h0 hh
  have hfl0 : (0 : ℤ) ≤ ⌊h⌋ := Int.floor_nonneg.mpr h0
  have hfl0' : (0 : ℤ) ≤ ⌊h'⌋ := Int.floor_nonneg.mpr h0'
  set n := s.length with hn_def
  set i := (⌊h⌋).toNat with hi_def
  set i' := (⌊h'⌋).toNat with hi'_def
  have hci : (i : ℚ) = (⌊h⌋ : ℚ) := by exact_mod_cast Int.toNat_of_nonneg hfl0
  have hci' : (i' : ℚ) = (⌊h'⌋ : ℚ) := by exact_mod_cast Int.toNat_of_nonneg hfl0'
  have hgle : (i : ℚ) ≤ h := by rw [hci]; exact Int.floor_le h
  have hglt : h < (i : ℚ) + 1 := by
    rw [hci]; exact_mod_cast Int.lt_floor_add_one h
  have hgle' : (i' : ℚ) ≤ h' := by rw [hci']; exact Int.floor_le h'
  have hii' : i ≤ i' := Int.toNat_le_toNat (Int.floor_le_floor hh)
  have hi'n : i' < n := by
    have hq : (⌊h'⌋ : ℚ) ≤ (n : ℚ) - 1 := le_trans (Int.floor_le h') h1
    have hz : ⌊h'⌋ ≤ (n : ℤ) - 1 := by exact_mod_cast hq
    omega
  have hin : i < n := Nat.lt_of_le_of_lt hii' hi'n
  have hmin : min (i + 1) (n - 1) < n := by omega
  have hmin' : min (i' + 1) (n - 1) < n := by omega
  rw [interp, interp,
    List.getD_eq_getElem s 0 hin, List.getD_eq_getElem s 0 hi'n,
    ← hi_def, ← hi'_def, ← hn_def,
    List.getD_eq_getElem s 0 hmin, List.getD_eq_getElem s 0 hmin']
  have hmono : ∀ (a b : ℕ) (ha : a < n) (hb : b < n), a ≤ b → s[a] ≤ s[b] := by
    intro a b ha hb hab
    have := hs.rel_get_of_le (a := ⟨a, ha⟩) (b := ⟨b, hb⟩) hab
    simpa [List.get_eq_getElem] using this
  have hA1 : s[i] ≤ s[min (i + 1) (n - 1)] := hmono _ _ hin hmin (by omega)
  have hB1 : s[i'] ≤ s[min (i' + 1) (n - 1)] := hmono _ _ hi'n hmin' (by omega)
  rcases Nat.eq_or_lt_of_le hii' with heq | hlt
  · simp only [heq] at hA1 ⊢
    have hD : (0 : ℚ) ≤ s[min (i' + 1) (n - 1)] - s[i'] := by linarith
    have := mul_le_mul_of_nonneg_right (sub_le_sub_right hh ((i' : ℚ))) hD
    linarith
  · have hAB : s[min (i + 1) (n - 1)] ≤ s[i'] := by
      apply hmono _ _ hmin hi'n
      omega
    have hD : (0 : ℚ) ≤ s[min (i + 1) (n - 1)] - s[i] := by linarith
    have hD' : (0 : ℚ) ≤ s[min (i' + 1) (n - 1)] - s[i'] := by linarith
    have hup : s[i] + (h - (i : ℚ)) * (s[min (i + 1) (n - 1)] - s[i]) ≤
        s[min (i + 1) (n - 1)] := by
      have hg1 : h - (i : ℚ) ≤ 1 := by linarith
      have := mul_le_mul_of_nonneg_right hg1 hD
      linarith
    have hlow : s[i'] ≤ s[i'] + (h' - (i' : ℚ)) * (s[min (i' + 1) (n - 1)] - s[i']) := by
      have hg0 : 0 ≤ h' - (i' : ℚ) := by linarith
      have := mul_nonneg hg0 hD'
      linarith
    linarith

theorem quantile_mono (xs : List ℚ) (hxs : xs ≠ []) {q q' : ℚ}
    (h0 : 0 ≤ q) (hqq : q ≤ q') (h1 : q' ≤ 1) :
    ∃ a b, quantile xs q = some a ∧ quantile xs q' = some b ∧ a ≤ b := by
  have hs : List.Sorted (· ≤ ·) (List.insertionSort (· ≤ ·) xs) :=
    List.sorted_insertionSort _ xs
  have hlen : (List.insertionSort (· ≤ ·) xs).length = xs.length :=
    (List.perm_insertionSort _ xs).length_eq
  have hne : 1 ≤ (List.insertionSort (· ≤ ·) xs).length := by
    rw [hlen]
    exact List.length_pos.mpr hxs
  have hnn : (0 : ℚ) ≤ ((List.insertionSort (· ≤ ·) xs).length : ℚ) - 1 := by
    have : (1 : ℚ) ≤ ((List.insertionSort (· ≤ ·) xs).length : ℚ) := by exact_mod_cast hne
    linarith
  refine ⟨interp (List.insertionSort (· ≤ ·) xs)
      (q * (((List.insertionSort (· ≤ ·) xs).length : ℚ) - 1)),
    interp (List.insertionSort (· ≤ ·) xs)
      (q' * (((List.insertionSort (· ≤ ·) xs).length : ℚ) - 1)),
    by simp [quantile, hxs], by simp [quantile, hxs], ?_⟩
  apply interp_mono hs hne
  · exact mul_nonneg h0 hnn
  · exact mul_le_mul_of_nonneg_right hqq hnn
  · calc q' * (((List.insertionSort (· ≤ ·) xs).length : ℚ) - 1) ≤
        1 * (((List.insertionSort (· ≤ ·) xs).length : ℚ) - 1) :=
        mul_le_mul_of_nonneg_right h1 hnn
      _ = ((List.insertionSort (· ≤ ·) xs).length : ℚ) - 1 := one_mul _

/-- A row of the caller's daily-load dataframe: the date-derived values
(`index.dayofyear`, `index.dayofweek`), the `load` column, and the stored
`dayofyear` / `dayofweek` columns (absent before annotation). -/
structure FRow where
  date_doy : ℕ
  date_dow : ℕ
  load : ℚ
  dayofyear : Option ℕ
  dayofweek : Option ℕ
deriving DecidableEq, Repr

/-- The daily-load dataframe: its rows and its column list. -/
structure Frame where
  rows : List FRow
  columns : List String
deriving DecidableEq, Repr

/-- Column assignment `df[c] = ...`: appends `c` to the column list
unless it is already present (then it is overwritten in place). -/
def add_column (cols : List String) (c : String) : List String :=
  if cols.contains c then cols else cols ++ [c]

/-- Lines 162-163: `daily_load['dayofyear'] = daily_load.index.dayofyear`
and likewise `dayofweek` - an in-place mutation of the caller's frame,
modelled by returning the updated frame. -/
def annotate_frame (f : Frame) : Frame :=
  { rows := f.rows.map (fun r =>
      { r with dayofyear := some r.date_doy, dayofweek := some r.date_dow }),
    columns := add_column (add_column f.columns "dayofyear") "dayofweek" }

/-- The view of a frame that `get_load_dist` reads: the `dayofyear`,
`dayofweek` and `load` columns of each row. -/
def frame_to_rows (f : Frame) : List Row :=
  f.rows.map (fun r => ⟨r.dayofyear.getD 0, r.dayofweek.getD 0, r.load⟩)

/-- The quantile list of lines 169/175: `q=[0.01, 0.05, 0.5, 0.95, 0.99]`. -/
def quantile_qs : List ℚ := [1/100, 1/20, 1/2, 19/20, 99/100]

/-- One sweep of lines 166-175: for each `center_day` in `range(1, 366)`,
the five quantiles of the `load` column of the selected window. -/
def mkTable (rows : List Row) (window_rad : ℤ) (weekday : Bool) :
    List (ℕ × List (Option ℚ)) :=
  (List.range' 1 365).map (fun center_day =>
    (center_day,
      quantile_qs.map (quantile
        ((get_load_dist rows (center_day : ℤ) window_rad weekday).map Row.load))))

/-- `calc_daily_load_distributions(daily_load, window_rad)`
(lines 159-177): annotate the frame in place, then build the weekday and
weekend quantile tables; the mutated frame is the third component. -/
def calc_daily_load_distributions (daily_load : Frame) (window_rad : ℤ := 7) :
    List (ℕ × List (Option ℚ)) × List (ℕ × List (Option ℚ)) × Frame :=
  let f := annotate_frame daily_load
  let rows := frame_to_rows f
  (mkTable rows window_rad true, mkTable rows window_rad false, f)

theorem mkTable_map_fst (rows : List Row) (w : ℤ) (wk : Bool) :
    (mkTable rows w wk).map Prod.fst = List.range' 1 365 := by
  unfold mkTable
  rw [List.map_map]
  exact List.map_id _

theorem mkTable_getElem? (rows : List Row) (w : ℤ) (wk : Bool) {c : ℕ}
    (hc1 : 1 ≤ c) (hc2 : c ≤ 365) :
    (mkTable rows w wk)[c - 1]? =
      some (c, quantile_qs.map (quantile
        ((get_load_dist rows (c : ℤ) w wk).map Row.load))) := by
  unfold mkTable
  rw [List.getElem?_map, List.getElem?_range' 1 1 (show c - 1 < 365 by omega)]
  simp only [Option.map_some']
  have hc : 1 + 1 * (c - 1) = c := by omega
  rw [hc]

/-- C5: when the window sample of a center day for a weekday class is
empty, the quantile table of that class in `calc_daily_load_distributions`
records a missing value (`none`) for all five quantiles of that day
instead of failing, and both sweeps still produce one entry for every
day 1..365. -/
theorem calc_empty_window_missing (f : Frame) (w : ℤ) (wk : Bool) (c : ℕ)
    (hc1 : 1 ≤ c) (hc2 : c ≤ 365)
    (hempty : get_load_dist (frame_to_rows (annotate_frame f)) (c : ℤ) w wk = []) :
    (if wk then (calc_daily_load_distributions f w).1
      else (calc_daily_load_distributions f w).2.1)[c - 1]? =
        some (c, [none, none, none, none, none]) ∧
      (calc_daily_load_distributions f w).1.map Prod.fst = List.range' 1 365 ∧
      (calc_daily_load_distributions f w).2.1.map Prod.fst = List.range' 1 365 := by
  have htab : (if wk then (calc_daily_load_distributions f w).1
      else (calc_daily_load_distributions f w).2.1) =
      mkTable (frame_to_rows (annotate_frame f)) w wk := by
    cases wk <;> rfl
  have h1 : (calc_daily_load_distributions f w).1 =
      mkTable (frame_to_rows (annotate_frame f)) w true := rfl
  have h2 : (calc_daily_load_distributions f w).2.1 =
      mkTable (frame_to_rows (annotate_frame f)) w false := rfl
  rw [htab, mkTable_getElem? _ _ _ hc1 hc2, hempty, h1, h2,
    mkTable_map_fst, mkTable_map_fst]
  refine ⟨?_, rfl, rfl⟩
  simp [quantile_qs, quantile]

/-- C5 witness: the theorem applied to a weekend-only series, whose
weekday window at `center_day = 10` is empty while the weekend window is
not. -/
theorem calc_empty_window_missing_witness :
    (if true then
        (calc_daily_load_distributions ⟨[⟨10, 6, 5, none, none⟩], ["load"]⟩ 7).1
      else
        (calc_daily_load_distributions ⟨[⟨10, 6, 5, none, none⟩], ["load"]⟩ 7).2.1)[
          (10 : ℕ) - 1]? =
        some (10, [none, none, none, none, none]) ∧
      (calc_daily_load_distributions ⟨[⟨10, 6, 5, none, none⟩], ["load"]⟩ 7).1.map
        Prod.fst = List.range' 1 365 ∧
      (calc_daily_load_distributions ⟨[⟨10, 6, 5, none, none⟩], ["load"]⟩ 7).2.1.map
        Prod.fst = List.range' 1 365 :=
  calc_empty_window_missing ⟨[⟨10, 6, 5, none, none⟩], ["load"]⟩ 7 true 10
    (by decide) (by decide) (by decide)

/-- C6: in the output table of either weekday class, for every center day
whose window sample is non-empty, the five quantiles are defined and
ordered: q01 ≤ q05 ≤ q50 ≤ q95 ≤ q99. -/
theorem calc_quantiles_ordered (f : Frame) (w : ℤ) (wk : Bool) (c : ℕ)
    (hc1 : 1 ≤ c) (hc2 : c ≤ 365)
    (hne : get_load_dist (frame_to_rows (annotate_frame f)) (c : ℤ) w wk ≠ []) :
    ∃ v1 v2 v3 v4 v5 : ℚ,
      (if wk then (calc_daily_load_distributions f w).1
        else (calc_daily_load_distributions f w).2.1)[c - 1]? =
          some (c, [some v1, some v2, some v3, some v4, some v5]) ∧
        v1 ≤ v2 ∧ v2 ≤ v3 ∧ v3 ≤ v4 ∧ v4 ≤ v5 := by
  have htab : (if wk then (calc_daily_load_distributions f w).1
      else (calc_daily_load_distributions f w).2.1) =
      mkTable (frame_to_rows (annotate_frame f)) w wk := by
    cases wk <;> rfl
  rw [htab, mkTable_getElem? _ _ _ hc1 hc2]
  have hxs : (get_load_dist (frame_to_rows (annotate_frame f)) (c : ℤ) w wk).map
      Row.load ≠ [] := by
    simpa using hne
  obtain ⟨v1, v2, e1, e2, l12⟩ := quantile_mono _ hxs
    (by norm_num : (0:ℚ) ≤ 1/100) (by norm_num : (1:ℚ)/100 ≤ 1/20) (by norm_num)
  obtain ⟨v2', v3, e2', e3, l23⟩ := quantile_mono _ hxs
    (by norm_num : (0:ℚ) ≤ 1/20) (by norm_num : (1:ℚ)/20 ≤ 1/2) (by norm_num)
  obtain ⟨v3', v4, e3', e4, l34⟩ := quantile_mono _ hxs
    (by norm_num : (0:ℚ) ≤ 1/2) (by norm_num : (1:ℚ)/2 ≤ 19/20) (by norm_num)
  obtain ⟨v4', v5, e4', e5, l45⟩ := quantile_mono _ hxs
    (by norm_num : (0:ℚ) ≤ 19/20) (by norm_num : (19:ℚ)/20 ≤ 99/100) (by norm_num)
  have hv2 : v2' = v2 := Option.some.inj (e2'.symm.trans e2)
  have hv3 : v3' = v3 := Option.some.inj (e3'.symm.trans e3)
  have hv4 : v4' = v4 := Option.some.inj (e4'.symm.trans e4)
  subst hv2 hv3 hv4
  refine ⟨v1, v2', v3', v4', v5, ?_, l12, l23, l34, l45⟩
  simp only [quantile_qs, List.map_cons, List.map_nil]
  rw [e1, e2, e3, e4, e5]

/-- C6 witness: the theorem applied to a one-record frame whose window at
`center_day = 10` is non-empty. -/
theorem calc_quantiles_ordered_witness :
    ∃ v1 v2 v3 v4 v5 : ℚ,
      (if true then
          (calc_daily_load_distributions ⟨[⟨10, 1, 5, none, none⟩], ["load"]⟩ 7).1
        else
          (calc_daily_load_distributions ⟨[⟨10, 1, 5, none, none⟩], ["load"]⟩ 7).2.1)[
            (10 : ℕ) - 1]? =
          some (10, [some v1, some v2, some v3, some v4, some v5]) ∧
        v1 ≤ v2 ∧ v2 ≤ v3 ∧ v3 ≤ v4 ∧ v4 ≤ v5 :=
  calc_quantiles_ordered ⟨[⟨10, 1, 5, none, none⟩], ["load"]⟩ 7 true 10
    (by decide) (by decide) (by decide)

/-- C7 (amended): `calc_daily_load_distributions` preserves the dates,
loads and row count of its input, but does mutate the caller's frame:
the columns `dayofyear` and `dayofweek` are assigned in place (appended
to the column list when absent) and filled with the index-derived
values, so the input is not returned unchanged. -/
theorem calc_mutates_input (f : Frame) (w : ℤ) :
    (calc_daily_load_distributions f w).2.2.rows.map
        (fun r => (r.date_doy, r.date_dow, r.load)) =
        f.rows.map (fun r => (r.date_doy, r.date_dow, r.load)) ∧
      (calc_daily_load_distributions f w).2.2.rows.length = f.rows.length ∧
      (calc_daily_load_distributions f w).2.2.columns =
        add_column (add_column f.columns "dayofyear") "dayofweek" ∧
      (calc_daily_load_distributions f w).2.2.rows.map FRow.dayofyear =
        f.rows.map (fun r => some r.date_doy) ∧
      (calc_daily_load_distributions f w).2.2.rows.map FRow.dayofweek =
        f.rows.map (fun r => some r.date_dow) := by
  refine ⟨?_, ?_, rfl, ?_, ?_⟩ <;>
    simp [calc_daily_load_distributions, annotate_frame, List.map_map, Function.comp]

/-- C7 counterexample: on a frame holding only a `load` column, the frame
after the call is not the frame that was passed in - the column list has
gained `dayofyear` and `dayofweek` and the new columns are populated. -/
theorem calc_mutates_input_cex :
    (calc_daily_load_distributions ⟨[⟨5, 1, 10, none, none⟩], ["load"]⟩ 7).2.2 ≠
      (⟨[⟨5, 1, 10, none, none⟩], ["load"]⟩ : Frame) := by
  decide

/-- C8 (amended): `get_load_dist` performs no validation at the call
boundary: a negative `window_rad` in the non-wrapping regime silently
yields an empty selection rather than an error. -/
theorem get_load_dist_no_validation {s : List Row} {c r : ℤ} {wk : Bool}
    (hr : r < 0) (h0 : 0 ≤ c + r) (h1 : c - r ≤ 364) :
    get_load_dist s c r wk = [] := by
  rw [get_load_dist_eq_filter]
  rw [List.filter_eq_nil_iff]
  intro x _
  unfold window_pred
  rw [if_neg (by omega), if_neg (by omega)]
  simp only [Bool.and_eq_true, decide_eq_true_eq, not_and]
  omega

/-- C8 witness: the theorem applied at a negative radius. -/
theorem get_load_dist_no_validation_witness :
    get_load_dist [(⟨30, 1, 5⟩ : Row)] 5 (-1) true = [] :=
  get_load_dist_no_validation (by decide) (by decide) (by decide)

/-- C8 counterexample: `center_day = 400` lies outside `[1, 365]`, yet the
call is not rejected: the wrapped window selection runs and returns the
record with day 30. -/
theorem get_load_dist_no_validation_cex :
    get_load_dist [(⟨30, 1, 5⟩ : Row)] 400 7 true = [(⟨30, 1, 5⟩ : Row)] := by
  decide

/-- C9: `calc_daily_load_distributions` is deterministic - equal inputs
give identical weekday and weekend tables - and each table is indexed by
`center_day` 1..365 with five quantile columns; day 366 never receives a
profile row. -/
theorem calc_deterministic (f₁ f₂ : Frame) (w₁ w₂ : ℤ)
    (hf : f₁ = f₂) (hw : w₁ = w₂) :
    calc_daily_load_distributions f₁ w₁ = calc_daily_load_distributions f₂ w₂ ∧
      (calc_daily_load_distributions f₁ w₁).1.map Prod.fst = List.range' 1 365 ∧
      (calc_daily_load_distributions f₁ w₁).2.1.map Prod.fst = List.range' 1 365 ∧
      (366 : ℕ) ∉ (calc_daily_load_distributions f₁ w₁).1.map Prod.fst ∧
      (366 : ℕ) ∉ (calc_daily_load_distributions f₁ w₁).2.1.map Prod.fst ∧
      (∀ p ∈ (calc_daily_load_distributions f₁ w₁).1, p.2.length = 5) ∧
      (∀ p ∈ (calc_daily_load_distributions f₁ w₁).2.1, p.2.length = 5) := by
  subst hf
  subst hw
  have h1 : (calc_daily_load_distributions f₁ w₁).1 =
      mkTable (frame_to_rows (annotate_frame f₁)) w₁ true := rfl
  have h2 : (calc_daily_load_distributions f₁ w₁).2.1 =
      mkTable (frame_to_rows (annotate_frame f₁)) w₁ false := rfl
  have hnm : (366 : ℕ) ∉ List.range' 1 365 := by
    intro h
    rw [List.mem_range'] at h
    omega
  have hcols : ∀ (rows : List Row) (w : ℤ) (wk : Bool),
      ∀ p ∈ mkTable rows w wk, p.2.length = 5 := by
    intro rows w wk p hp
    unfold mkTable at hp
    obtain ⟨a, -, rfl⟩ := List.mem_map.mp hp
    simp [quantile_qs]
  exact ⟨rfl, by rw [h1, mkTable_map_fst], by rw [h2, mkTable_map_fst],
    by rw [h1, mkTable_map_fst]; exact hnm, by rw [h2, mkTable_map_fst]; exact hnm,
    by rw [h1]; exact hcols _ _ _, by rw [h2]; exact hcols _ _ _⟩

/-- C9 witness: the theorem applied at one concrete frame and radius. -/
theorem calc_deterministic_witness :
    calc_daily_load_distributions ⟨[], []⟩ 7 = calc_daily_load_distributions ⟨[], []⟩ 7 ∧
      (calc_daily_load_distributions ⟨[], []⟩ 7).1.map Prod.fst = List.range' 1 365 ∧
      (calc_daily_load_distributions ⟨[], []⟩ 7).2.1.map Prod.fst = List.range' 1 365 ∧
      (366 : ℕ) ∉ (calc_daily_load_distributions ⟨[], []⟩ 7).1.map Prod.fst ∧
      (366 : ℕ) ∉ (calc_daily_load_distributions ⟨[], []⟩ 7).2.1.map Prod.fst ∧
      (∀ p ∈ (calc_daily_load_distributions ⟨[], []⟩ 7).1, p.2.length = 5) ∧
      (∀ p ∈ (calc_daily_load_distributions ⟨[], []⟩ 7).2.1, p.2.length = 5) :=
  calc_deterministic ⟨[], []⟩ ⟨[], []⟩ 7 7 rfl rfl
